import Mathlib

/-!
Verification of the Authentication Token Pipeline specification against the
repository's code.  Byte strings are modelled as `List Nat` with every byte
below 256; machine words are `Nat` reduced modulo `2 ^ 32` where the source
relies on 32-bit overflow.  Fallible operations return `Option`, with `none`
standing for a thrown exception or a rejected input, as noted at each
definition.
-/

set_option maxRecDepth 20000

/-! ## Byte-string utilities -/

/-- ASCII bytes of a string constant (all constants used here are ASCII, so
this agrees with the UTF-8 bytes `Buffer.from(s)` would produce). -/
def strToBytes (s : String) : List Nat :=
  s.data.map (fun c => c.toNat)

/-- Split a byte string at every occurrence of the separator byte, mirroring
the semantics of JavaScript `String.prototype.split` with a one-character
separator: the empty string splits to `[""]`, separators at the ends produce
empty segments. -/
def splitOnByte (sep : Nat) : List Nat → List (List Nat)
  | [] => [[]]
  | c :: rest =>
    let r := splitOnByte sep rest
    if c = sep then [] :: r
    else
      match r with
      | s :: ss => (c :: s) :: ss
      | [] => [[c]]

/-! ## SHA-256 (the `sha256` digest of Node's `crypto` module)

A direct implementation of FIPS 180-4 over `Nat`, with 32-bit words kept
below `2 ^ 32` by explicit reduction. -/

/-- Reduce to a 32-bit word. -/
def w32 (n : Nat) : Nat := n % 4294967296

/-- Rotate a 32-bit word right by n bit positions. -/
def rotr (n x : Nat) : Nat := w32 ((x >>> n) ||| (x <<< (32 - n)))

def smallSigma0 (x : Nat) : Nat := (rotr 7 x) ^^^ (rotr 18 x) ^^^ (x >>> 3)

def smallSigma1 (x : Nat) : Nat := (rotr 17 x) ^^^ (rotr 19 x) ^^^ (x >>> 10)

def bigSigma0 (x : Nat) : Nat := (rotr 2 x) ^^^ (rotr 13 x) ^^^ (rotr 22 x)

def bigSigma1 (x : Nat) : Nat := (rotr 6 x) ^^^ (rotr 11 x) ^^^ (rotr 25 x)

/-- The choice function `Ch(x,y,z)`; the bitwise complement of `x` is `x XOR 0xffffffff` on
32-bit words. -/
def chF (x y z : Nat) : Nat := (x &&& y) ^^^ ((x ^^^ 4294967295) &&& z)

def majF (x y z : Nat) : Nat := (x &&& y) ^^^ (x &&& z) ^^^ (y &&& z)

/-- Round constants of SHA-256 (FIPS 180-4 section 4.2.2), written in
decimal. -/
def sha256K : List Nat :=
  [1116352408, 1899447441, 3049323471, 3921009573, 961987163,
   1508970993, 2453635748, 2870763221, 3624381080, 310598401,
   607225278, 1426881987, 1925078388, 2162078206, 2614888103,
   3248222580, 3835390401, 4022224774, 264347078, 604807628,
   770255983, 1249150122, 1555081692, 1996064986, 2554220882,
   2821834349, 2952996808, 3210313671, 3336571891, 3584528711,
   113926993, 338241895, 666307205, 773529912, 1294757372,
   1396182291, 1695183700, 1986661051, 2177026350, 2456956037,
   2730485921, 2820302411, 3259730800, 3345764771, 3516065817,
   3600352804, 4094571909, 275423344, 430227734, 506948616,
   659060556, 883997877, 958139571, 1322822218, 1537002063,
   1747873779, 1955562222, 2024104815, 2227730452, 2361852424,
   2428436474, 2756734187, 3204031479, 3329325298]

/-- Initial hash state of SHA-256 (FIPS 180-4 section 5.3.3), in
decimal. -/
def sha256H0 : List Nat :=
  [1779033703, 3144134277, 1013904242, 2773480762,
   1359893119, 2600822924, 528734635, 1541459225]

/-- Extend the message schedule: given the sliding window of the previous 16
schedule words, produce the next `k` words. -/
def schedExt (window : List Nat) : Nat → List Nat
  | 0 => []
  | k + 1 =>
    let next := w32 (smallSigma1 (window.getD 14 0) + window.getD 9 0 +
      smallSigma0 (window.getD 1 0) + window.getD 0 0)
    next :: schedExt (window.drop 1 ++ [next]) k

/-- One SHA-256 round applied to the 8-word working state. -/
def sha256Round (st : List Nat) (kw : Nat × Nat) : List Nat :=
  match st with
  | [a, b, c, d, e, f, g, h] =>
    let t1 := w32 (h + bigSigma1 e + chF e f g + kw.1 + kw.2)
    let t2 := w32 (bigSigma0 a + majF a b c)
    [w32 (t1 + t2), a, b, c, w32 (d + t1), e, f, g]
  | other => other

/-- Compress one 16-word block into the hash state. -/
def sha256Compress (hs block : List Nat) : List Nat :=
  let sched := block ++ schedExt block 48
  let st := (sha256K.zip sched).foldl sha256Round hs
  List.zipWith (fun x y => w32 (x + y)) hs st

/-- Big-endian bytes of a 64-bit message length. -/
def lenBytes64 (n : Nat) : List Nat :=
  [n / 72057594037927936 % 256, n / 281474976710656 % 256,
   n / 1099511627776 % 256, n / 4294967296 % 256,
   n / 16777216 % 256, n / 65536 % 256, n / 256 % 256, n % 256]

/-- SHA-256 padding: append `0x80`, zeros to 56 mod 64, and the bit length. -/
def padMessage (msg : List Nat) : List Nat :=
  let zeros := (120 - (msg.length + 1) % 64) % 64
  msg ++ 128 :: List.replicate zeros 0 ++ lenBytes64 (8 * msg.length)

/-- Group bytes into big-endian 32-bit words (the input length is always a
multiple of 4 after padding; a leftover shorter than 4 bytes is dropped). -/
def bytesToWords : List Nat → List Nat
  | b1 :: b2 :: b3 :: b4 :: rest =>
    (((b1 * 256 + b2) * 256 + b3) * 256 + b4) :: bytesToWords rest
  | _ => []

/-- Group words into 16-word blocks (a leftover shorter than 16 words cannot
occur on padded input and is dropped). -/
def wordsToBlocks : List Nat → List (List Nat)
  | w1 :: w2 :: w3 :: w4 :: w5 :: w6 :: w7 :: w8 ::
    w9 :: w10 :: w11 :: w12 :: w13 :: w14 :: w15 :: w16 :: rest =>
    [w1, w2, w3, w4, w5, w6, w7, w8,
     w9, w10, w11, w12, w13, w14, w15, w16] :: wordsToBlocks rest
  | _ => []

/-- SHA-256 of a byte string, producing the 32 digest bytes. -/
def sha256 (msg : List Nat) : List Nat :=
  let blocks := wordsToBlocks (bytesToWords (padMessage msg))
  let hs := blocks.foldl sha256Compress sha256H0
  hs.foldr
    (fun w acc => w / 16777216 % 256 :: w / 65536 % 256 :: w / 256 % 256 :: w % 256 :: acc)
    []

/-! ## HMAC-SHA256 (`crypto.createHmac("sha256", key)`) -/

/-- HMAC-SHA256 over byte strings (RFC 2104, block size 64). -/
def hmacSha256 (key msg : List Nat) : List Nat :=
  let k0 := if 64 < key.length then sha256 key else key
  let kpad := k0 ++ List.replicate (64 - k0.length) 0
  let ipad := kpad.map (fun b => b ^^^ 54)
  let opad := kpad.map (fun b => b ^^^ 92)
  sha256 (opad ++ sha256 (ipad ++ msg))

/-! ## Hex and base64 output encodings (`digest("hex")`, `digest("base64")`,
`digest("base64url")`) -/

/-- Lowercase hex digit byte for a value below 16. -/
def hexDigit (n : Nat) : Nat := if n < 10 then 48 + n else 87 + n

/-- Lowercase hex encoding of a byte string, as Node's `digest("hex")`. -/
def toHex (bs : List Nat) : List Nat :=
  bs.foldr (fun b acc => hexDigit (b / 16) :: hexDigit (b % 16) :: acc) []

/-- Standard base64 alphabet byte for a 6-bit value. -/
def b64Char (v : Nat) : Nat :=
  if v < 26 then 65 + v
  else if v < 52 then 97 + (v - 26)
  else if v < 62 then 48 + (v - 52)
  else if v = 62 then 43
  else 47

/-- Standard base64 encoding with `=` padding, as Node's `digest("base64")`. -/
def b64Encode : List Nat → List Nat
  | b1 :: b2 :: b3 :: rest =>
    b64Char (b1 / 4) :: b64Char (b1 % 4 * 16 + b2 / 16) ::
      b64Char (b2 % 16 * 4 + b3 / 64) :: b64Char (b3 % 64) :: b64Encode rest
  | [b1, b2] => [b64Char (b1 / 4), b64Char (b1 % 4 * 16 + b2 / 16), b64Char (b2 % 16 * 4), 61]
  | [b1] => [b64Char (b1 / 4), b64Char (b1 % 4 * 16), 61, 61]
  | [] => []

/-- base64url alphabet byte for a 6-bit value (`-` and `_` in place of
`+` and `/`). -/
def b64urlChar (v : Nat) : Nat :=
  if v < 26 then 65 + v
  else if v < 52 then 97 + (v - 26)
  else if v < 62 then 48 + (v - 52)
  else if v = 62 then 45
  else 95

/-- Unpadded base64url encoding, as Node's `Buffer.toString("base64url")`. -/
def b64urlEncode : List Nat → List Nat
  | b1 :: b2 :: b3 :: rest =>
    b64urlChar (b1 / 4) :: b64urlChar (b1 % 4 * 16 + b2 / 16) ::
      b64urlChar (b2 % 16 * 4 + b3 / 64) :: b64urlChar (b3 % 64) :: b64urlEncode rest
  | [b1, b2] => [b64urlChar (b1 / 4), b64urlChar (b1 % 4 * 16 + b2 / 16), b64urlChar (b2 % 16 * 4)]
  | [b1] => [b64urlChar (b1 / 4), b64urlChar (b1 % 4 * 16)]
  | [] => []

/-- Value of a base64url alphabet byte, `none` on any other byte. -/
def b64urlCharVal (c : Nat) : Option Nat :=
  if 65 ≤ c ∧ c ≤ 90 then some (c - 65)
  else if 97 ≤ c ∧ c ≤ 122 then some (c - 97 + 26)
  else if 48 ≤ c ∧ c ≤ 57 then some (c - 48 + 52)
  else if c = 45 then some 62
  else if c = 95 then some 63
  else none

/-- Unpadded base64url decoding; `none` when a byte is outside the alphabet
or the length is congruent to 1 mod 4 (which no encoding produces). -/
def b64urlDecode : List Nat → Option (List Nat)
  | c1 :: c2 :: c3 :: c4 :: rest => do
    let v1 ← b64urlCharVal c1
    let v2 ← b64urlCharVal c2
    let v3 ← b64urlCharVal c3
    let v4 ← b64urlCharVal c4
    let tail ← b64urlDecode rest
    pure ((v1 * 4 + v2 / 16) :: (v2 % 16 * 16 + v3 / 4) :: (v3 % 4 * 64 + v4) :: tail)
  | [c1, c2, c3] => do
    let v1 ← b64urlCharVal c1
    let v2 ← b64urlCharVal c2
    let v3 ← b64urlCharVal c3
    pure [v1 * 4 + v2 / 16, v2 % 16 * 16 + v3 / 4]
  | [c1, c2] => do
    let v1 ← b64urlCharVal c1
    let v2 ← b64urlCharVal c2
    pure [v1 * 4 + v2 / 16]
  | [_] => none
  | [] => some []

/-! ## Well-formed structured data (JSON) checker

The spec requires a token's header and payload segments to "decode to
well-formed structured data"; tokens in this repository carry JSON.  The
checker below recognises JSON values (objects, arrays, strings with escapes,
numbers, `true`/`false`/`null`) with surrounding whitespace. -/

/-- JSON whitespace bytes: space, tab, LF, CR. -/
def jsonWsB (c : Nat) : Bool := c = 32 || c = 9 || c = 10 || c = 13

/-- Drop leading JSON whitespace. -/
def skipWs : List Nat → List Nat
  | [] => []
  | c :: rest => if jsonWsB c then skipWs rest else c :: rest

/-- ASCII decimal digit test. -/
def digitB (c : Nat) : Bool := 48 ≤ c && c ≤ 57

/-- Consume an expected literal byte sequence. -/
def expectLit : List Nat → List Nat → Option (List Nat)
  | [], input => some input
  | l :: ls, c :: cs => if c = l then expectLit ls cs else none
  | _ :: _, [] => none

/-- Consume the remainder of a JSON string after the opening quote,
honouring backslash escapes; returns the input after the closing quote. -/
def jsonStringRest : List Nat → Option (List Nat)
  | [] => none
  | 34 :: rest => some rest
  | 92 :: _ :: rest => jsonStringRest rest
  | 92 :: [] => none
  | _ :: rest => jsonStringRest rest

/-- Consume the digits, optional fraction and optional exponent of a JSON
number, given the input positioned at its first digit. -/
def jsonNumCore (s : List Nat) : Option (List Nat) :=
  let ds := s.takeWhile digitB
  let r := s.drop ds.length
  if ds.isEmpty then none
  else
    let afterFrac :=
      match r with
      | 46 :: r2 =>
        let ds2 := r2.takeWhile digitB
        if ds2.isEmpty then none else some (r2.drop ds2.length)
      | _ => some r
    match afterFrac with
    | none => none
    | some r3 =>
      match r3 with
      | 101 :: r4 =>
        let r5 := match r4 with | 43 :: r5 => r5 | 45 :: r5 => r5 | _ => r4
        let ds3 := r5.takeWhile digitB
        if ds3.isEmpty then none else some (r5.drop ds3.length)
      | 69 :: r4 =>
        let r5 := match r4 with | 43 :: r5 => r5 | 45 :: r5 => r5 | _ => r4
        let ds3 := r5.takeWhile digitB
        if ds3.isEmpty then none else some (r5.drop ds3.length)
      | _ => some r3

/-- Consume a JSON number (optional leading minus). -/
def jsonNumRest : List Nat → Option (List Nat)
  | 45 :: rest => jsonNumCore rest
  | s => jsonNumCore s

/-- Task of the JSON recogniser: a value, or the body of an object or array
(`first` is true until the first member has been read). -/
inductive JTask
  | value
  | objBody (first : Bool)
  | arrBody (first : Bool)

/-- Fuel-driven JSON recogniser; on success returns the input remaining
after the recognised construct.  `fuel` bounds nesting and member count and
is instantiated with the input length, which always suffices. -/
def jsonRun : Nat → JTask → List Nat → Option (List Nat)
  | 0, _, _ => none
  | f + 1, .value, s =>
    match skipWs s with
    | 34 :: r => jsonStringRest r
    | 116 :: r => expectLit (strToBytes "rue") r
    | 102 :: r => expectLit (strToBytes "alse") r
    | 110 :: r => expectLit (strToBytes "ull") r
    | 123 :: r => jsonRun f (.objBody true) r
    | 91 :: r => jsonRun f (.arrBody true) r
    | c :: r => if digitB c || c = 45 then jsonNumRest (c :: r) else none
    | [] => none
  | f + 1, .objBody first, s =>
    match skipWs s with
    | 125 :: r => if first then some r else none
    | 34 :: r =>
      match jsonStringRest r with
      | none => none
      | some r1 =>
        match skipWs r1 with
        | 58 :: r2 =>
          match jsonRun f .value r2 with
          | none => none
          | some r3 =>
            match skipWs r3 with
            | 44 :: r4 => jsonRun f (.objBody false) r4
            | 125 :: r4 => some r4
            | _ => none
        | _ => none
    | _ => none
  | f + 1, .arrBody first, s =>
    match skipWs s with
    | 93 :: r => if first then some r else none
    | s1 =>
      match jsonRun f .value s1 with
      | none => none
      | some r1 =>
        match skipWs r1 with
        | 44 :: r2 => jsonRun f (.arrBody false) r2
        | 93 :: r2 => some r2
        | _ => none

/-- A byte string is well-formed structured data when it is exactly one
JSON value, up to surrounding whitespace. -/
def jsonWf (s : List Nat) : Bool :=
  match jsonRun (s.length + 1) .value s with
  | some r => (skipWs r).isEmpty
  | none => false

/-! ## SignatureEngine: the HMAC path of `src/unnamed/part_004`

```js
const SECRET = "super_secret_key";
const signature = crypto.createHmac("sha256", SECRET).update(payload).digest("hex");
function verifySignature(payload, receivedSignature) {
  const expected = crypto.createHmac("sha256", SECRET).update(payload).digest("hex");
  return crypto.timingSafeEqual(Buffer.from(expected), Buffer.from(receivedSignature));
}
```
-/

/-- The shared HMAC secret of `part_004`. -/
def hmacDemoSecret : List Nat := strToBytes "super_secret_key"

/-- The hex HMAC-SHA256 signature `part_004` computes over a payload. -/
def hmacHexSig (payload : List Nat) : List Nat :=
  toHex (hmacSha256 hmacDemoSecret payload)

/-- Model of `crypto.timingSafeEqual`: compares equal-length byte strings in constant
time and THROWS (modelled as `none`) when the lengths differ. -/
def timingSafeEqual (a b : List Nat) : Option Bool :=
  if a.length = b.length then some (a == b) else none

/-- Function `verifySignature` of `part_004`; `none` models the `RangeError` thrown
by `timingSafeEqual` on a length mismatch. -/
def verifySignature (payload receivedSignature : List Nat) : Option Bool :=
  timingSafeEqual (hmacHexSig payload) receivedSignature

/-! ## Manual cookie signing of `src/unnamed/part_010`

```js
function sign(value, secret) {
  return crypto.createHmac("sha256", secret).update(value).digest("base64");
}
function verify(signedValue, secret) {
  const [value, signature] = signedValue.split(".");
  return sign(value, secret) === signature ? value : null;
}
```
-/

/-- Function `sign` of `part_010`: standard-base64 HMAC-SHA256 of the value. -/
def cookieSign (value secret : List Nat) : List Nat :=
  b64Encode (hmacSha256 secret value)

/-- Function `verify` of `part_010`.  JavaScript array destructuring takes the first
two elements of the split; a missing second element is `undefined`, which
compares unequal to any string, yielding `null` (`none`). -/
def cookieVerify (signedValue secret : List Nat) : Option (List Nat) :=
  let parts := splitOnByte 46 signedValue
  let value := parts.headD []
  match parts.get? 1 with
  | some signature => if cookieSign value secret == signature then some value else none
  | none => none

/-! ## Authorization URLs constructed in the source

`src/unnamed/part_008` and `src/62_live_test_OpenId.md` build the Google
authorization URL by string templating; `src/44_Hashing_in_NodeJS.md`
(OpenID live-test section) builds one with `response_type=id_token` and a
hard-coded nonce.  None of them includes a `state` parameter. -/

/-- The authorization URL of `part_008` / `62_live_test_OpenId.md`:
`https://accounts.google.com/o/oauth2/v2/auth?response_type=code&client_id=${clientId}&scope=openid email profile&redirect_uri=${redirectUrl}`. -/
def authUrlPopup (clientId redirectUrl : String) : String :=
  "https://accounts.google.com/o/oauth2/v2/auth?response_type=code&client_id="
    ++ clientId ++ "&scope=openid email profile&redirect_uri=" ++ redirectUrl

/-- The authorization URL of the OpenID live test in
`44_Hashing_in_NodeJS.md` (lines 285–292). -/
def authUrlOpenid (clientId redirectUri : String) : String :=
  "https://accounts.google.com/o/oauth2/v2/auth?" ++ "response_type=id_token"
    ++ "&client_id=" ++ clientId ++ "&scope=openid email profile"
    ++ "&redirect_uri=" ++ redirectUri ++ "&nonce=123456"

/-- Is `pat` a contiguous run of `l`?  Decidable substring test used to
inspect the URLs. -/
def containsSeq (l pat : List Nat) : Bool :=
  match l with
  | [] => pat.isEmpty
  | _ :: rest => pat.isPrefixOf l || containsSeq rest pat

/-- Substring test on strings via their byte lists. -/
def containsSub (s pat : String) : Bool :=
  containsSeq (strToBytes s) (strToBytes pat)

/-! ## AuthorizationCodeExchanger:
`src/70_using-google-auth-library-to-verify-token/services/googleAuthService.js`

```js
export async function fetchUserFromGoogle(code) {
  const payload = `code=${code}&client_id=${clientId}&client_secret=${clientSecret}...`;
  const response = await fetch("https://oauth2.googleapis.com/token", { method: "POST", ..., body: payload });
  const data = await response.json();
  if (data.error) { ...; return; }
  const loginTicket = await client.verifyIdToken({ idToken: data.id_token, audience: clientId });
  const userData = loginTicket.getPayload();
  return userData;
}
```

The function receives only the authorization code: no `state` parameter
reaches it and no comparison against a stored state happens anywhere on the
path; the token-endpoint POST is issued unconditionally.  The network and
the library verifier are modelled as oracles supplied by the caller. -/

/-- The provider's JSON answer to the token-endpoint POST. -/
structure TokenResponse where
  error : Option String
  idToken : String

/-- Outcome of the exchange.  `stateMismatch` is part of the type so the
spec's claimed failure mode is expressible; the code never produces it. -/
inductive ExchangeOutcome
  | stateMismatch
  | providerError (e : String)
  | userData (payload : String)
  deriving DecidableEq

/-- Trace of one `fetchUserFromGoogle` call: whether the token-endpoint
request was made, and the outcome. -/
structure ExchangeTrace where
  tokenRequestMade : Bool
  outcome : ExchangeOutcome
  deriving DecidableEq

/-- Shallow embedding of `fetchUserFromGoogle`: `tokenEndpoint` answers the
POST, `verifyIdToken` stands for the `google-auth-library` verification and
payload extraction.  The POST is made before anything else; `data.error`
short-circuits; otherwise the ID token is verified and its payload
returned. -/
def fetchUserFromGoogle (code : String) (tokenEndpoint : String → TokenResponse)
    (verifyIdToken : String → String) : ExchangeTrace :=
  let data := tokenEndpoint code
  match data.error with
  | some e => { tokenRequestMade := true, outcome := .providerError e }
  | none => { tokenRequestMade := true, outcome := .userData (verifyIdToken data.idToken) }

/-! ## TokenCodec (spec §4.2)

Only the decoding half appears in the repository (`Buffer.from(...,
"base64url")` in `52_JWT.mjs`, `atob(token.split(".")[1])` in
`part_008`); the encoder and the strict decoder are modelled from the
spec. -/

/-- Result of a successful decode: the three raw segments plus the signing
input, which is the first two wire segments joined by the dot exactly as
received. -/
structure DecodedToken where
  header : List Nat
  payload : List Nat
  signingInput : List Nat
  signature : List Nat
  deriving DecidableEq

/-- Modelled from the spec: `TokenCodec.encode(header, payload, signature)
-> wire` is not present in the repository (the material only decodes
tokens); per spec §6 the wire format is
`base64url(header).base64url(payload).base64url(signature)`. -/
def tokenEncode (h p s : List Nat) : List Nat :=
  b64urlEncode h ++ 46 :: b64urlEncode p ++ 46 :: b64urlEncode s

/-- Modelled from the spec: `TokenCodec.decode`, failing (`none`, i.e.
`MalformedToken`) unless the wire splits into exactly three non-empty
segments, each valid base64url, with header and payload decoding to
well-formed structured data. -/
def tokenDecode (wire : List Nat) : Option DecodedToken :=
  match splitOnByte 46 wire with
  | [s1, s2, s3] =>
    if s1.isEmpty || s2.isEmpty || s3.isEmpty then none
    else
      match b64urlDecode s1, b64urlDecode s2, b64urlDecode s3 with
      | some h, some p, some sg =>
        if jsonWf h && jsonWf p then
          some { header := h, payload := p, signingInput := s1 ++ 46 :: s2, signature := sg }
        else none
      | _, _, _ => none
  | _ => none

/-! ## TokenVerifier (spec §4.3)

The repository verifies tokens through the `jsonwebtoken` and
`google-auth-library` packages, whose internals are not part of the source;
the state machine below is modelled from the spec. -/

/-- Rejection reasons of the spec taxonomy (§4.3/§7). -/
inductive RejectReason
  | malformed
  | badSignature
  | expiredToken
  | notYetValid
  | issMismatch
  | audMismatch
  | nonceMismatch
  deriving DecidableEq

/-- Semantic claims of a token payload. -/
structure TokenClaims where
  iss : String
  aud : List String
  sub : String
  exp : Int
  nbf : Option Int
  nonce : Option String
  deriving DecidableEq

/-- Verifier configuration: trusted issuer, client identifier, clock-skew
tolerance, and the nonce recorded at authorization-request time. -/
structure VerifierConfig where
  issuer : String
  clientId : String
  skewTol : Int
  expectedNonce : Option String
  deriving DecidableEq

/-- Modelled from the spec: `nbf` (if present) must be at most now plus the
tolerance. -/
def nbfOk (now tol : Int) : Option Int → Bool
  | none => true
  | some t => t ≤ now + tol

/-- Modelled from the spec: when a nonce was supplied at request time, the
token's `nonce` claim must match it exactly. -/
def nonceOk (expected tokenNonce : Option String) : Bool :=
  match expected with
  | none => true
  | some v => tokenNonce = some v

/-- Modelled from the spec: the audience claim must contain the configured
client identifier (set containment). -/
def audOk (aud : List String) (clientId : String) : Bool :=
  aud.contains clientId

/-- Modelled from the spec (§4.3 step 4): validate semantic claims in the
order the spec lists them — expiry, not-before, issuer, audience, nonce —
returning the first violation, or `none` when all pass. -/
def validateClaims (cfg : VerifierConfig) (now : Int) (c : TokenClaims) : Option RejectReason :=
  if now - cfg.skewTol < c.exp then
    if nbfOk now cfg.skewTol c.nbf then
      if c.iss = cfg.issuer then
        if audOk c.aud cfg.clientId then
          if nonceOk cfg.expectedNonce c.nonce then none
          else some .nonceMismatch
        else some .audMismatch
      else some .issMismatch
    else some .notYetValid
  else some .expiredToken

/-- Terminal state of the verifier. -/
inductive VerifyResult
  | success (t : DecodedToken) (c : TokenClaims)
  | rejected (r : RejectReason)
  deriving DecidableEq

/-- Modelled from the spec (§4.3): decode, try every candidate key against
the literal signing input, then validate claims.  `parseClaims` extracts the
semantic claims from the raw payload (claim serialization is not fixed by
the spec); its failure is a malformed token. -/
def verifyToken (parseClaims : List Nat → Option TokenClaims)
    (keys : List (List Nat)) (cfg : VerifierConfig) (now : Int)
    (wire : List Nat) : VerifyResult :=
  match tokenDecode wire with
  | none => .rejected .malformed
  | some t =>
    if keys.any (fun k => hmacSha256 k t.signingInput == t.signature) then
      match parseClaims t.payload with
      | none => .rejected .malformed
      | some c =>
        match validateClaims cfg now c with
        | some r => .rejected r
        | none => .success t c
    else .rejected .badSignature

/-! ## SessionIssuer (spec §4.5, `src/unnamed/part_007` + `src/52_JWT.mjs`)

`part_007` issues the session JWT with
`jwt.sign({ id, name, email }, secret, { expiresIn })` and verifies it with
`jwt.verify(token, secret)`.  `52_JWT.mjs` exhibits the HS256 internals:
the signature is `HMAC_SHA256(base64url(header) + "." + base64url(payload),
secret)` in base64url.  The payload serialization follows
`JSON.stringify` over the object `jsonwebtoken` builds: the caller's claims
in insertion order, then `iat`, then `exp = iat + ttl`. -/

/-- ASCII decimal digits of a number, as `JSON.stringify` renders a
non-negative integer. -/
def natBytes (n : Nat) : List Nat :=
  if n = 0 then [48] else (Nat.digits 10 n).reverse.map (fun d => d + 48)

/-- Claims the session JWT of `part_007` embeds. -/
structure SessionClaims where
  id : Nat
  name : List Nat
  email : List Nat
  deriving DecidableEq

/-- Literal fragments of the session payload serialization. -/
def litIdKey : List Nat := strToBytes "\x7b\"id\":"

def litNameKey : List Nat := strToBytes ",\"name\":\""

def litEmailKey : List Nat := strToBytes "\",\"email\":\""

/-- Variant of `litEmailKey` without the closing quote of the previous
string, which the string parser has already consumed. -/
def litEmailKeyT : List Nat := strToBytes ",\"email\":\""

def litIatKey : List Nat := strToBytes "\",\"iat\":"

/-- Variant of `litIatKey` without the closing quote of the previous
string. -/
def litIatKeyT : List Nat := strToBytes ",\"iat\":"

def litExpKey : List Nat := strToBytes ",\"exp\":"

def litClose : List Nat := strToBytes "\x7d"

/-- JSON serialization of the session payload, in the field order
`jsonwebtoken` produces for `part_007`. -/
def serializeSessionPayload (c : SessionClaims) (iat exp : Nat) : List Nat :=
  litIdKey ++ natBytes c.id ++
  litNameKey ++ c.name ++
  litEmailKey ++ c.email ++
  litIatKey ++ natBytes iat ++
  litExpKey ++ natBytes exp ++
  litClose

/-- Greedily consume leading decimal digits into a number. -/
def parseNatAux (acc : Nat) : List Nat → Nat × List Nat
  | [] => (acc, [])
  | c :: rest => if digitB c then parseNatAux (acc * 10 + (c - 48)) rest else (acc, c :: rest)

/-- Parse a decimal number (at least one digit). -/
def parseNatB : List Nat → Option (Nat × List Nat)
  | c :: rest => if digitB c then some (parseNatAux 0 (c :: rest)) else none
  | [] => none

/-- Consume the body of a JSON string up to the closing quote (the session
serializer emits no escapes). -/
def takeStringB : List Nat → Option (List Nat × List Nat)
  | [] => none
  | c :: rest =>
    if c = 34 then some ([], rest)
    else
      match takeStringB rest with
      | some (s, r) => some (c :: s, r)
      | none => none

/-- Parse the session payload back into claims, issued-at and expiry;
inverse of `serializeSessionPayload` on its image. -/
def parseSessionPayload (input : List Nat) : Option (SessionClaims × Nat × Nat) := do
  let r1 ← expectLit litIdKey input
  let (idv, r2) := (← parseNatB r1)
  let r3 ← expectLit litNameKey r2
  let (namev, r4) := (← takeStringB r3)
  let r5 ← expectLit litEmailKeyT r4
  let (emailv, r6) := (← takeStringB r5)
  let r7 ← expectLit litIatKeyT r6
  let (iatv, r8) := (← parseNatB r7)
  let r9 ← expectLit litExpKey r8
  let (expv, r10) := (← parseNatB r9)
  let r11 ← expectLit litClose r10
  if r11.isEmpty then pure ({ id := idv, name := namev, email := emailv }, iatv, expv)
  else none

/-- The HS256 JWT header, exactly as `jsonwebtoken` serializes it. -/
def hs256Header : List Nat := strToBytes "\x7b\"alg\":\"HS256\",\"typ\":\"JWT\"\x7d"

/-- Embedding of `jwt.sign` as used by `part_007` (HS256 internals from
`52_JWT.mjs`): build the payload with `iat = now`, `exp = now + ttl`, and
sign the literal base64url signing input. -/
def sessionIssue (secret : List Nat) (c : SessionClaims) (ttl now : Nat) : List Nat :=
  let payload := serializeSessionPayload c now (now + ttl)
  let signingInput := b64urlEncode hs256Header ++ 46 :: b64urlEncode payload
  signingInput ++ 46 :: b64urlEncode (hmacSha256 secret signingInput)

/-- Modelled from the spec (§4.5): session verification — structural checks
as in the token verifier, scoped to the self-issued key set; the signature
must verify under some key whose validity window covers now, and the expiry
must exceed now minus the tolerance. -/
def sessionVerify (keys : List (List Nat)) (tol now : Int) (wire : List Nat) :
    Option (SessionClaims × Nat × Nat) :=
  match splitOnByte 46 wire with
  | [s1, s2, s3] =>
    match b64urlDecode s3 with
    | some sig =>
      if keys.any (fun k => hmacSha256 k (s1 ++ 46 :: s2) == sig) then
        match b64urlDecode s2 with
        | some pbytes =>
          match parseSessionPayload pbytes with
          | some (c, iat, e) => if now - tol < (e : Int) then some (c, iat, e) else none
          | none => none
        | none => none
      else none
    | none => none
  | _ => none

/-! ## Supporting lemmas: alphabets, base64url round trip, splitting -/

theorem b64urlChar_ne_dot (v : Nat) : b64urlChar v ≠ 46 := by
  unfold b64urlChar; split_ifs <;> omega

theorem b64Char_ne_dot (v : Nat) : b64Char v ≠ 46 := by
  unfold b64Char; split_ifs <;> omega

theorem not_dot_mem_b64urlEncode (xs : List Nat) : 46 ∉ b64urlEncode xs := by
  induction xs using b64urlEncode.induct with
  | case1 b1 b2 b3 rest ih =>
    simp only [b64urlEncode, List.mem_cons, not_or]
    exact ⟨fun h => b64urlChar_ne_dot _ h.symm, fun h => b64urlChar_ne_dot _ h.symm,
      fun h => b64urlChar_ne_dot _ h.symm, fun h => b64urlChar_ne_dot _ h.symm, ih⟩
  | case2 b1 b2 =>
    simp only [b64urlEncode, List.mem_cons, not_or]
    refine ⟨fun h => b64urlChar_ne_dot _ h.symm, fun h => b64urlChar_ne_dot _ h.symm,
      fun h => b64urlChar_ne_dot _ h.symm, by simp⟩
  | case3 b1 =>
    simp only [b64urlEncode, List.mem_cons, not_or]
    refine ⟨fun h => b64urlChar_ne_dot _ h.symm, fun h => b64urlChar_ne_dot _ h.symm, by simp⟩
  | case4 => simp [b64urlEncode]

theorem not_dot_mem_b64Encode (xs : List Nat) : 46 ∉ b64Encode xs := by
  induction xs using b64Encode.induct with
  | case1 b1 b2 b3 rest ih =>
    simp only [b64Encode, List.mem_cons, not_or]
    exact ⟨fun h => b64Char_ne_dot _ h.symm, fun h => b64Char_ne_dot _ h.symm,
      fun h => b64Char_ne_dot _ h.symm, fun h => b64Char_ne_dot _ h.symm, ih⟩
  | case2 b1 b2 =>
    simp only [b64Encode, List.mem_cons, not_or]
    refine ⟨fun h => b64Char_ne_dot _ h.symm, fun h => b64Char_ne_dot _ h.symm,
      fun h => b64Char_ne_dot _ h.symm, by simp⟩
  | case3 b1 =>
    simp only [b64Encode, List.mem_cons, not_or]
    refine ⟨fun h => b64Char_ne_dot _ h.symm, fun h => b64Char_ne_dot _ h.symm, by simp⟩
  | case4 => simp [b64Encode]

theorem b64urlCharVal_b64urlChar : ∀ v : Nat, v < 64 → b64urlCharVal (b64urlChar v) = some v := by
  decide

theorem b64urlDecode_b64urlEncode (xs : List Nat) (h : ∀ b ∈ xs, b < 256) :
    b64urlDecode (b64urlEncode xs) = some xs := by
  induction xs using b64urlEncode.induct with
  | case1 b1 b2 b3 rest ih =>
    have h1 : b1 < 256 := h b1 (by simp)
    have h2 : b2 < 256 := h b2 (by simp)
    have h3 : b3 < 256 := h b3 (by simp)
    have hrest : ∀ b ∈ rest, b < 256 := fun b hb => h b (by simp [hb])
    simp only [b64urlEncode, b64urlDecode,
      b64urlCharVal_b64urlChar _ (by omega : b1 / 4 < 64),
      b64urlCharVal_b64urlChar _ (by omega : b1 % 4 * 16 + b2 / 16 < 64),
      b64urlCharVal_b64urlChar _ (by omega : b2 % 16 * 4 + b3 / 64 < 64),
      b64urlCharVal_b64urlChar _ (by omega : b3 % 64 < 64),
      ih hrest, Option.bind_some]
    simp only [Option.bind_eq_bind, Option.some_bind]
    congr 1
    have e1 : b1 / 4 * 4 + (b1 % 4 * 16 + b2 / 16) / 16 = b1 := by omega
    have e2 : (b1 % 4 * 16 + b2 / 16) % 16 * 16 + (b2 % 16 * 4 + b3 / 64) / 4 = b2 := by omega
    have e3 : (b2 % 16 * 4 + b3 / 64) % 4 * 64 + b3 % 64 = b3 := by omega
    rw [e1, e2, e3]
  | case2 b1 b2 =>
    have h1 : b1 < 256 := h b1 (by simp)
    have h2 : b2 < 256 := h b2 (by simp)
    simp only [b64urlEncode, b64urlDecode,
      b64urlCharVal_b64urlChar _ (by omega : b1 / 4 < 64),
      b64urlCharVal_b64urlChar _ (by omega : b1 % 4 * 16 + b2 / 16 < 64),
      b64urlCharVal_b64urlChar _ (by omega : b2 % 16 * 4 < 64)]
    simp only [Option.bind_eq_bind, Option.some_bind]
    congr 1
    have e1 : b1 / 4 * 4 + (b1 % 4 * 16 + b2 / 16) / 16 = b1 := by omega
    have e2 : (b1 % 4 * 16 + b2 / 16) % 16 * 16 + b2 % 16 * 4 / 4 = b2 := by omega
    rw [e1, e2]
  | case3 b1 =>
    have h1 : b1 < 256 := h b1 (by simp)
    simp only [b64urlEncode, b64urlDecode,
      b64urlCharVal_b64urlChar _ (by omega : b1 / 4 < 64),
      b64urlCharVal_b64urlChar _ (by omega : b1 % 4 * 16 < 64)]
    simp only [Option.bind_eq_bind, Option.some_bind]
    congr 1
    have e1 : b1 / 4 * 4 + b1 % 4 * 16 / 16 = b1 := by omega
    rw [e1]
  | case4 => rfl

theorem b64urlEncode_eq_nil_iff (xs : List Nat) : b64urlEncode xs = [] ↔ xs = [] := by
  match xs with
  | [] => simp [b64urlEncode]
  | [b1] => simp [b64urlEncode]
  | [b1, b2] => simp [b64urlEncode]
  | b1 :: b2 :: b3 :: rest => simp [b64urlEncode]

theorem splitOnByte_of_not_mem {sep : Nat} {xs : List Nat} (h : sep ∉ xs) :
    splitOnByte sep xs = [xs] := by
  induction xs with
  | nil => rfl
  | cons c rest ih =>
    have hc : c ≠ sep := fun hc => h (hc ▸ List.mem_cons_self c rest)
    have hrest : sep ∉ rest := fun hr => h (List.mem_cons_of_mem c hr)
    simp only [splitOnByte, ih hrest, if_neg hc]

theorem splitOnByte_append {sep : Nat} {xs : List Nat} (rest : List Nat) (h : sep ∉ xs) :
    splitOnByte sep (xs ++ sep :: rest) = xs :: splitOnByte sep rest := by
  induction xs with
  | nil => simp [splitOnByte]
  | cons c tail ih =>
    have hc : c ≠ sep := fun hc => h (hc ▸ List.mem_cons_self c tail)
    have htail : sep ∉ tail := fun hr => h (List.mem_cons_of_mem c hr)
    simp only [List.cons_append, splitOnByte, if_neg hc]
    rw [show tail.append (sep :: rest) = tail ++ sep :: rest from rfl, ih htail]

/-! ## Supporting lemmas: digest shape, hex length -/

theorem sha256Round_length (st : List Nat) (kw : Nat × Nat) :
    (sha256Round st kw).length = st.length := by
  unfold sha256Round
  split <;> simp_all

theorem foldl_sha256Round_length (l : List (Nat × Nat)) (st : List Nat) :
    (l.foldl sha256Round st).length = st.length := by
  induction l generalizing st with
  | nil => rfl
  | cons kw rest ih => simp [List.foldl_cons, ih, sha256Round_length]

theorem sha256Compress_length (hs block : List Nat) :
    (sha256Compress hs block).length = hs.length := by
  unfold sha256Compress
  simp [List.length_zipWith, foldl_sha256Round_length]

theorem foldl_sha256Compress_length (blocks : List (List Nat)) (hs : List Nat) :
    (blocks.foldl sha256Compress hs).length = hs.length := by
  induction blocks generalizing hs with
  | nil => rfl
  | cons b rest ih => simp [List.foldl_cons, ih, sha256Compress_length]

/-- Unfolding equation for `sha256` with its let bindings expanded. -/
theorem sha256_eq (msg : List Nat) :
    sha256 msg = ((wordsToBlocks (bytesToWords (padMessage msg))).foldl
        sha256Compress sha256H0).foldr
      (fun w acc => w / 16777216 % 256 :: w / 65536 % 256 :: w / 256 % 256 :: w % 256 :: acc)
      [] := rfl

theorem foldrBytes_length (hs : List Nat) :
    (hs.foldr
      (fun w acc => w / 16777216 % 256 :: w / 65536 % 256 :: w / 256 % 256 :: w % 256 :: acc)
      []).length = 4 * hs.length := by
  induction hs with
  | nil => rfl
  | cons w rest ih => simp [List.foldr_cons, ih]; omega

theorem foldrBytes_lt (hs : List Nat) :
    ∀ b ∈ hs.foldr
      (fun w acc => w / 16777216 % 256 :: w / 65536 % 256 :: w / 256 % 256 :: w % 256 :: acc)
      [], b < 256 := by
  induction hs with
  | nil => simp
  | cons w rest ih =>
    intro b hb
    simp only [List.foldr_cons, List.mem_cons] at hb
    rcases hb with h | h | h | h | h
    · omega
    · omega
    · omega
    · omega
    · exact ih b h

theorem sha256_length (msg : List Nat) : (sha256 msg).length = 32 := by
  rw [sha256_eq, foldrBytes_length, foldl_sha256Compress_length]
  rfl

theorem mem_sha256_lt (msg : List Nat) : ∀ b ∈ sha256 msg, b < 256 := by
  rw [sha256_eq]
  exact foldrBytes_lt _

theorem hmacSha256_length (key msg : List Nat) : (hmacSha256 key msg).length = 32 := by
  unfold hmacSha256
  exact sha256_length _

theorem mem_hmacSha256_lt (key msg : List Nat) : ∀ b ∈ hmacSha256 key msg, b < 256 := by
  unfold hmacSha256
  exact mem_sha256_lt _

theorem toHex_length (bs : List Nat) : (toHex bs).length = 2 * bs.length := by
  induction bs with
  | nil => rfl
  | cons b rest ih => simp only [toHex, List.foldr_cons, List.length_cons] at ih ⊢; omega

theorem hmacHexSig_length (p : List Nat) : (hmacHexSig p).length = 64 := by
  unfold hmacHexSig
  rw [toHex_length, hmacSha256_length]

/-! ## Supporting lemmas: session payload parse/serialize round trip -/

theorem expectLit_append (ls r : List Nat) : expectLit ls (ls ++ r) = some r := by
  induction ls with
  | nil => rfl
  | cons c cs ih => simp [expectLit, ih]

theorem expectLit_self (ls : List Nat) : expectLit ls ls = some [] := by
  have := expectLit_append ls []
  simpa using this

theorem parseNatAux_digits (ds : List Nat) (r : List Nat) (acc : Nat)
    (h : ∀ c ∈ ds, digitB c = true) :
    parseNatAux acc (ds ++ r) = parseNatAux (ds.foldl (fun a c => a * 10 + (c - 48)) acc) r := by
  induction ds generalizing acc with
  | nil => rfl
  | cons c cs ih =>
    have hc : digitB c = true := h c (by simp)
    have hcs : ∀ x ∈ cs, digitB x = true := fun x hx => h x (by simp [hx])
    simp only [List.cons_append, parseNatAux, hc, if_true, List.foldl_cons]
    exact ih _ hcs

theorem parseNatAux_stop (acc : Nat) (r : List Nat)
    (hr : ∀ c, r.head? = some c → digitB c = false) :
    parseNatAux acc r = (acc, r) := by
  cases r with
  | nil => rfl
  | cons c rest =>
    have : digitB c = false := hr c rfl
    simp [parseNatAux, this]

theorem mem_natBytes_digit (n : Nat) : ∀ c ∈ natBytes n, digitB c = true := by
  intro c hc
  unfold natBytes at hc
  split at hc
  · simp at hc; subst hc; rfl
  · simp only [List.mem_map, List.mem_reverse] at hc
    obtain ⟨d, hd, rfl⟩ := hc
    have : d < 10 := Nat.digits_lt_base (by norm_num) hd
    simp [digitB]; omega

theorem foldl_digits_rev (ds : List Nat) (acc : Nat) :
    ((ds.reverse.map (fun d => d + 48)).foldl (fun a c => a * 10 + (c - 48)) acc) =
      acc * 10 ^ ds.length + Nat.ofDigits 10 ds := by
  induction ds generalizing acc with
  | nil => simp [Nat.ofDigits_nil]
  | cons d ds ih =>
    simp only [List.reverse_cons, List.map_append, List.map_cons, List.map_nil,
      List.foldl_append, List.foldl_cons, List.foldl_nil, ih, Nat.ofDigits_cons,
      List.length_cons]
    have : d + 48 - 48 = d := by omega
    rw [this, pow_succ]
    ring

theorem natBytes_foldl (n : Nat) :
    (natBytes n).foldl (fun a c => a * 10 + (c - 48)) 0 = n := by
  unfold natBytes
  split
  · subst n; rfl
  · rw [foldl_digits_rev]
    simp [Nat.ofDigits_digits]

theorem natBytes_ne_nil (n : Nat) : natBytes n ≠ [] := by
  unfold natBytes
  split
  · simp
  · simp only [ne_eq, List.map_eq_nil_iff, List.reverse_eq_nil_iff]
    exact Nat.digits_ne_nil_iff_ne_zero.mpr (by assumption)

theorem parseNatB_natBytes (n : Nat) (r : List Nat)
    (hr : ∀ c, r.head? = some c → digitB c = false) :
    parseNatB (natBytes n ++ r) = some (n, r) := by
  cases hnb : natBytes n with
  | nil => exact absurd hnb (natBytes_ne_nil n)
  | cons c cs =>
    have hc : digitB c = true := mem_natBytes_digit n c (by simp [hnb])
    have hall : ∀ x ∈ natBytes n, digitB x = true := mem_natBytes_digit n
    rw [← hnb]
    have hcons : natBytes n ++ r = c :: (cs ++ r) := by rw [hnb]; rfl
    rw [hcons]
    simp only [parseNatB, hc, if_true]
    have : c :: (cs ++ r) = natBytes n ++ r := hcons.symm
    rw [this, parseNatAux_digits _ _ _ hall, natBytes_foldl,
      parseNatAux_stop _ _ hr]

theorem takeStringB_append (s r : List Nat) (h : 34 ∉ s) :
    takeStringB (s ++ 34 :: r) = some (s, r) := by
  induction s with
  | nil => simp [takeStringB]
  | cons c cs ih =>
    have hc : c ≠ 34 := fun hc => h (hc ▸ List.mem_cons_self c cs)
    have hcs : 34 ∉ cs := fun hm => h (List.mem_cons_of_mem c hm)
    simp only [List.cons_append, takeStringB, if_neg hc]
    rw [show cs.append (34 :: r) = cs ++ 34 :: r from rfl, ih hcs]

/-- Bridge: the serializer literal `litEmailKey` is the closing quote of the
name string followed by the parser literal `litEmailKeyT`. -/
theorem litEmailKey_cons : litEmailKey = 34 :: litEmailKeyT := rfl

/-- Bridge: `litIatKey` is the closing quote of the email string followed by
the parser literal `litIatKeyT`. -/
theorem litIatKey_cons : litIatKey = 34 :: litIatKeyT := rfl

/-- Head-byte reasoning helper: a list whose head is a known non-digit
satisfies the stop condition of `parseNatB_natBytes`. -/
theorem headNotDigit (x : List Nat) (cc0 : Nat) (hx : x.head? = some cc0)
    (hd : digitB cc0 = false) : ∀ cc, x.head? = some cc → digitB cc = false := by
  intro cc h
  rw [hx] at h
  cases h
  exact hd

theorem parseSessionPayload_serialize (c : SessionClaims) (iat exp : Nat)
    (hname : 34 ∉ c.name) (hemail : 34 ∉ c.email) :
    parseSessionPayload (serializeSessionPayload c iat exp) = some (c, iat, exp) := by
  unfold parseSessionPayload serializeSessionPayload
  simp only [List.append_assoc]
  rw [expectLit_append]
  simp only [Option.bind_eq_bind, Option.some_bind]
  rw [parseNatB_natBytes _ _ (by exact headNotDigit _ 44 rfl rfl)]
  simp only [Option.some_bind]
  rw [expectLit_append]
  simp only [Option.some_bind]
  rw [litEmailKey_cons]
  simp only [List.cons_append]
  rw [takeStringB_append _ _ hname]
  simp only [Option.some_bind]
  rw [expectLit_append]
  simp only [Option.some_bind]
  rw [litIatKey_cons]
  simp only [List.cons_append]
  rw [takeStringB_append _ _ hemail]
  simp only [Option.some_bind]
  rw [expectLit_append]
  simp only [Option.some_bind]
  rw [parseNatB_natBytes _ _ (by exact headNotDigit _ 44 rfl rfl)]
  simp only [Option.some_bind]
  rw [expectLit_append]
  simp only [Option.some_bind]
  rw [parseNatB_natBytes _ _ (by exact headNotDigit _ 125 rfl rfl)]
  simp only [Option.some_bind]
  rw [expectLit_self]
  simp only [Option.some_bind]
  rfl

theorem mem_natBytes_lt (n : Nat) : ∀ b ∈ natBytes n, b < 256 := by
  intro b hb
  have := mem_natBytes_digit n b hb
  simp [digitB] at this
  omega

theorem mem_serialize_lt (c : SessionClaims) (iat exp : Nat)
    (hn : ∀ b ∈ c.name, b < 256) (he : ∀ b ∈ c.email, b < 256) :
    ∀ b ∈ serializeSessionPayload c iat exp, b < 256 := by
  intro b hb
  unfold serializeSessionPayload at hb
  simp only [List.mem_append] at hb
  have hlitId : ∀ b ∈ litIdKey, b < 256 := by decide
  have hlitName : ∀ b ∈ litNameKey, b < 256 := by decide
  have hlitEmail : ∀ b ∈ litEmailKey, b < 256 := by decide
  have hlitIat : ∀ b ∈ litIatKey, b < 256 := by decide
  have hlitExp : ∀ b ∈ litExpKey, b < 256 := by decide
  have hlitClose : ∀ b ∈ litClose, b < 256 := by decide
  rcases hb with ((((((((((h | h) | h) | h) | h) | h) | h) | h) | h) | h) | h)
  · exact hlitId b h
  · exact mem_natBytes_lt _ b h
  · exact hlitName b h
  · exact hn b h
  · exact hlitEmail b h
  · exact he b h
  · exact hlitIat b h
  · exact mem_natBytes_lt _ b h
  · exact hlitExp b h
  · exact mem_natBytes_lt _ b h
  · exact hlitClose b h

/-- C9: for every subject, claim set and positive ttl, verifying the
artifact produced by `sessionIssue` before its expiry, under the same key
set, succeeds and returns the original claims unchanged. -/
theorem c9_session_roundtrip (secret : List Nat) (c : SessionClaims) (ttl now : Nat)
    (tol now2 : Int)
    (hname : 34 ∉ c.name) (hemail : 34 ∉ c.email)
    (hnb : ∀ b ∈ c.name, b < 256) (heb : ∀ b ∈ c.email, b < 256)
    (hexp : now2 - tol < ((now + ttl : Nat) : Int)) :
    sessionVerify [secret] tol now2 (sessionIssue secret c ttl now) =
      some (c, now, now + ttl) := by
  simp only [sessionIssue, sessionVerify]
  have hsplit :
      splitOnByte 46
        ((b64urlEncode hs256Header ++ 46 :: b64urlEncode (serializeSessionPayload c now (now + ttl))) ++
          46 :: b64urlEncode (hmacSha256 secret
            (b64urlEncode hs256Header ++ 46 :: b64urlEncode (serializeSessionPayload c now (now + ttl))))) =
      [b64urlEncode hs256Header, b64urlEncode (serializeSessionPayload c now (now + ttl)),
        b64urlEncode (hmacSha256 secret
          (b64urlEncode hs256Header ++ 46 :: b64urlEncode (serializeSessionPayload c now (now + ttl))))] := by
    rw [List.append_assoc, List.cons_append,
      splitOnByte_append _ (not_dot_mem_b64urlEncode _),
      splitOnByte_append _ (not_dot_mem_b64urlEncode _),
      splitOnByte_of_not_mem (not_dot_mem_b64urlEncode _)]
  rw [hsplit]
  have hd3 : b64urlDecode (b64urlEncode (hmacSha256 secret
      (b64urlEncode hs256Header ++ 46 :: b64urlEncode (serializeSessionPayload c now (now + ttl))))) =
      some (hmacSha256 secret
        (b64urlEncode hs256Header ++ 46 :: b64urlEncode (serializeSessionPayload c now (now + ttl)))) :=
    b64urlDecode_b64urlEncode _ (mem_hmacSha256_lt _ _)
  have hd2 : b64urlDecode (b64urlEncode (serializeSessionPayload c now (now + ttl))) =
      some (serializeSessionPayload c now (now + ttl)) :=
    b64urlDecode_b64urlEncode _ (mem_serialize_lt _ _ _ hnb heb)
  have hpp : parseSessionPayload (serializeSessionPayload c now (now + ttl)) =
      some (c, now, now + ttl) :=
    parseSessionPayload_serialize _ _ _ hname hemail
  simp only [hd3, hd2, hpp, List.any_cons, List.any_nil, Bool.or_false,
    beq_self_eq_true, if_true]
  rw [if_pos hexp]

/-- Witness for C9: a concrete session issued for the `part_007`-style user
under the `52_JWT.mjs` secret round-trips through verification ten seconds
later. -/
theorem c9_session_roundtrip_witness :
    sessionVerify [strToBytes "secret"] 0 1743646214
      (sessionIssue (strToBytes "secret")
        { id := 1, name := strToBytes "Bilal", email := strToBytes "b@x.co" } 86400 1743646204) =
      some ({ id := 1, name := strToBytes "Bilal", email := strToBytes "b@x.co" },
        1743646204, 1743646204 + 86400) :=
  c9_session_roundtrip (strToBytes "secret")
    { id := 1, name := strToBytes "Bilal", email := strToBytes "b@x.co" }
    86400 1743646204 0 1743646214
    (by decide) (by decide) (by decide) (by decide) (by decide)

/-- C2: for every valid (header, payload, signature) triple — non-empty
segments whose header and payload are well-formed structured data —
decoding the encoded wire returns exactly the same triple, with the signing
input being the first two wire segments joined by the dot. -/
theorem c2_tokenCodec_roundtrip (h p s : List Nat)
    (hh : ∀ b ∈ h, b < 256) (hp : ∀ b ∈ p, b < 256) (hs : ∀ b ∈ s, b < 256)
    (hne1 : h ≠ []) (hne2 : p ≠ []) (hne3 : s ≠ [])
    (hwf1 : jsonWf h = true) (hwf2 : jsonWf p = true) :
    tokenDecode (tokenEncode h p s) =
      some { header := h, payload := p,
             signingInput := b64urlEncode h ++ 46 :: b64urlEncode p, signature := s } := by
  unfold tokenEncode tokenDecode
  rw [List.append_assoc, List.cons_append]
  rw [splitOnByte_append _ (not_dot_mem_b64urlEncode h),
    splitOnByte_append _ (not_dot_mem_b64urlEncode p),
    splitOnByte_of_not_mem (not_dot_mem_b64urlEncode s)]
  have e1 : (b64urlEncode h).isEmpty = false := by
    rw [List.isEmpty_eq_false]
    exact fun e => hne1 ((b64urlEncode_eq_nil_iff h).mp e)
  have e2 : (b64urlEncode p).isEmpty = false := by
    rw [List.isEmpty_eq_false]
    exact fun e => hne2 ((b64urlEncode_eq_nil_iff p).mp e)
  have e3 : (b64urlEncode s).isEmpty = false := by
    rw [List.isEmpty_eq_false]
    exact fun e => hne3 ((b64urlEncode_eq_nil_iff s).mp e)
  simp only [e1, e2, e3, Bool.or_false, Bool.false_or, if_false,
    b64urlDecode_b64urlEncode h hh, b64urlDecode_b64urlEncode p hp,
    b64urlDecode_b64urlEncode s hs, hwf1, hwf2, Bool.and_self, if_true]
  rfl

/-- Witness for C2: the round trip at the real HS256 header, a small JSON
payload, and a three-byte signature. -/
theorem c2_tokenCodec_roundtrip_witness :
    tokenDecode (tokenEncode hs256Header (strToBytes "\x7b\"iat\":1\x7d") [1, 2, 3]) =
      some { header := hs256Header, payload := strToBytes "\x7b\"iat\":1\x7d",
             signingInput := b64urlEncode hs256Header ++ 46 ::
               b64urlEncode (strToBytes "\x7b\"iat\":1\x7d"),
             signature := [1, 2, 3] } :=
  c2_tokenCodec_roundtrip hs256Header (strToBytes "\x7b\"iat\":1\x7d") [1, 2, 3]
    (by decide) (by decide) (by decide) (by decide) (by decide) (by decide)
    (by decide) (by decide)

/-- C3: claim validation rejects with `expiredToken` exactly when `exp` is
not strictly greater than now minus the skew tolerance; concretely, with
zero tolerance a token whose expiry is one second in the past is rejected
with `expiredToken`, while the same token with expiry one hour ahead is
accepted. -/
theorem c3_expiry_check :
    (∀ (cfg : VerifierConfig) (now : Int) (c : TokenClaims),
      (validateClaims cfg now c = some RejectReason.expiredToken ↔
        ¬ (now - cfg.skewTol < c.exp))) ∧
    validateClaims
      { issuer := "https://idp.example", clientId := "client-123",
        skewTol := 0, expectedNonce := none } 1000
      { iss := "https://idp.example", aud := ["client-123"], sub := "alice",
        exp := 999, nbf := none, nonce := none } = some RejectReason.expiredToken ∧
    validateClaims
      { issuer := "https://idp.example", clientId := "client-123",
        skewTol := 0, expectedNonce := none } 1000
      { iss := "https://idp.example", aud := ["client-123"], sub := "alice",
        exp := 1000 + 3600, nbf := none, nonce := none } = none := by
  refine ⟨fun cfg now c => ?_, by decide, by decide⟩
  unfold validateClaims
  split_ifs <;> simp_all

/-- C7: the audience check passes exactly when the `aud` claim contains the
configured client identifier; with audience `client-123`, a token carrying
`aud = ["client-123", "other"]` passes validation while `aud = ["other"]`
is rejected with `audMismatch`. -/
theorem c7_audience_check :
    (∀ (aud : List String) (clientId : String), audOk aud clientId = true ↔ clientId ∈ aud) ∧
    (∀ (cfg : VerifierConfig) (now : Int) (c : TokenClaims),
      (validateClaims cfg now c = some RejectReason.audMismatch ↔
        (now - cfg.skewTol < c.exp ∧ nbfOk now cfg.skewTol c.nbf = true ∧
          c.iss = cfg.issuer ∧ cfg.clientId ∉ c.aud))) ∧
    validateClaims
      { issuer := "https://idp.example", clientId := "client-123",
        skewTol := 60, expectedNonce := none } 1000
      { iss := "https://idp.example", aud := ["client-123", "other"], sub := "alice",
        exp := 5000, nbf := none, nonce := none } = none ∧
    validateClaims
      { issuer := "https://idp.example", clientId := "client-123",
        skewTol := 60, expectedNonce := none } 1000
      { iss := "https://idp.example", aud := ["other"], sub := "alice",
        exp := 5000, nbf := none, nonce := none } = some RejectReason.audMismatch := by
  refine ⟨fun aud clientId => ?_, fun cfg now c => ?_, by decide, by decide⟩
  · simp [audOk, List.elem_iff]
  · unfold validateClaims
    split_ifs <;> simp_all [audOk, List.elem_iff]

/-- Counterexample for C4: with a received state that differs from the
stored request state, the embedded `fetchUserFromGoogle` still makes the
token-endpoint request and completes the exchange — it does not fail with
`StateMismatch`, because the code never receives or compares any state. -/
theorem c4_counterexample :
    "returned-state" ≠ "stored-state" ∧
    (fetchUserFromGoogle "auth-code" (fun _ => { error := none, idToken := "tok" })
      (fun s => s)).tokenRequestMade = true ∧
    (fetchUserFromGoogle "auth-code" (fun _ => { error := none, idToken := "tok" })
      (fun s => s)).outcome = ExchangeOutcome.userData "tok" :=
  ⟨by decide, rfl, rfl⟩

/-- C4 (amended): `fetchUserFromGoogle` — the repository's `exchangeCode` —
accepts no received state and performs no state comparison: for every code
and every provider behaviour it issues the token-endpoint request
unconditionally and never produces a `StateMismatch` outcome; the
anti-CSRF check claimed by the spec is absent from the code. -/
theorem c4_no_state_check (code : String) (tokenEndpoint : String → TokenResponse)
    (verifyIdToken : String → String) :
    (fetchUserFromGoogle code tokenEndpoint verifyIdToken).tokenRequestMade = true ∧
    (fetchUserFromGoogle code tokenEndpoint verifyIdToken).outcome ≠
      ExchangeOutcome.stateMismatch := by
  unfold fetchUserFromGoogle
  cases h : (tokenEndpoint code).error <;> simp [h]

/-- Counterexample for C8: the authorization URL built by the OpenID
live-test section of `44_Hashing_in_NodeJS.md` does not fix
`response_type` to `code` (it requests `id_token` directly), carries no
`state` parameter at all, and its `nonce` is the hard-coded constant
`123456`; being a deterministic string template, a second invocation with
the same configuration yields the identical URL, so no two invocations
produce different state or nonce values. -/
theorem c8_counterexample :
    containsSub (authUrlOpenid "YOUR_CLIENT_ID" "http://localhost:5500/index.html")
      "response_type=code" = false ∧
    containsSub (authUrlOpenid "YOUR_CLIENT_ID" "http://localhost:5500/index.html")
      "state=" = false ∧
    containsSub (authUrlOpenid "YOUR_CLIENT_ID" "http://localhost:5500/index.html")
      "nonce=123456" = true ∧
    authUrlOpenid "YOUR_CLIENT_ID" "http://localhost:5500/index.html" =
      authUrlOpenid "YOUR_CLIENT_ID" "http://localhost:5500/index.html" :=
  ⟨by decide, by decide, by decide, rfl⟩

/-- C8 (amended): the authorization URLs the source constructs are
deterministic string templates.  The code-flow URL of `part_008` /
`62_live_test_OpenId.md` does fix `response_type=code` but carries neither
a `state` nor a `nonce` parameter; the OpenID live-test URL of
`44_Hashing_in_NodeJS.md` uses `response_type=id_token` with the constant
nonce `123456`; and for any fixed configuration two invocations return the
identical URL, so no fresh random state or nonce is ever generated. -/
theorem c8_authorization_urls :
    containsSub (authUrlPopup
      "594555697613-18p3s2o6hl7mvc3gj0o2a2bg7b27tj9m.apps.googleusercontent.com"
      "http://localhost:5500") "response_type=code" = true ∧
    containsSub (authUrlPopup
      "594555697613-18p3s2o6hl7mvc3gj0o2a2bg7b27tj9m.apps.googleusercontent.com"
      "http://localhost:5500") "state=" = false ∧
    containsSub (authUrlPopup
      "594555697613-18p3s2o6hl7mvc3gj0o2a2bg7b27tj9m.apps.googleusercontent.com"
      "http://localhost:5500") "nonce=" = false ∧
    containsSub (authUrlOpenid "YOUR_CLIENT_ID" "http://localhost:5500/index.html")
      "response_type=id_token" = true ∧
    containsSub (authUrlOpenid "YOUR_CLIENT_ID" "http://localhost:5500/index.html")
      "state=" = false ∧
    containsSub (authUrlOpenid "YOUR_CLIENT_ID" "http://localhost:5500/index.html")
      "nonce=123456" = true ∧
    (∀ c r : String, authUrlPopup c r = authUrlPopup c r ∧
      authUrlOpenid c r = authUrlOpenid c r) :=
  ⟨by decide, by decide, by decide, by decide, by decide, by decide,
    fun _ _ => ⟨rfl, rfl⟩⟩

/-- Counterexample for C5: on an empty signature — a length mismatch — the
`part_004` verifier does not return false: `crypto.timingSafeEqual` throws
a `RangeError` (modelled by `none`) because the expected hex digest has 64
bytes and the received signature has 0. -/
theorem c5_counterexample : verifySignature (strToBytes "p") [] = none := by
  unfold verifySignature timingSafeEqual
  rw [hmacHexSig_length]
  simp

/-- C5 (amended): for signatures whose byte length equals the 64-byte hex
digest, `verifySignature` returns a boolean without throwing — false
exactly on a mismatch — and a differing length is detected before any
byte comparison; but instead of returning false on a length mismatch, the
verifier throws (`none`), because `crypto.timingSafeEqual` requires
equal-length inputs. -/
theorem c5_verify_length_behavior :
    (∀ p s : List Nat, s.length = 64 → verifySignature p s = some (hmacHexSig p == s)) ∧
    (∀ p s : List Nat, s.length ≠ 64 → verifySignature p s = none) := by
  constructor
  · intro p s h
    unfold verifySignature timingSafeEqual
    rw [hmacHexSig_length, if_pos h.symm]
  · intro p s h
    unfold verifySignature timingSafeEqual
    rw [hmacHexSig_length, if_neg (fun e => h e.symm)]

/-- Witness for C5: the verifier accepts the correct 64-byte hex signature
of payload `p` and throws on a 3-byte signature. -/
theorem c5_verify_length_behavior_witness :
    verifySignature (strToBytes "p") (hmacHexSig (strToBytes "p")) = some true ∧
    verifySignature (strToBytes "p") (strToBytes "abc") = none := by
  constructor
  · have h := c5_verify_length_behavior.1 (strToBytes "p") (hmacHexSig (strToBytes "p"))
      (hmacHexSig_length _)
    simpa using h
  · exact c5_verify_length_behavior.2 (strToBytes "p") (strToBytes "abc") (by decide)

/-- Dots never occur in the manual cookie signature (standard base64 of an
HMAC digest). -/
theorem not_dot_mem_cookieSign (value secret : List Nat) : 46 ∉ cookieSign value secret := by
  unfold cookieSign
  exact not_dot_mem_b64Encode _

/-- Counterexample for C10: the value `"a." ++ sign("a", secret)` contains a
dot, yet verifying its correctly signed cookie returns `some "a"` — a
non-null, silently truncated value — not null as the claim states. -/
theorem c10_counterexample :
    46 ∈ (97 :: 46 :: cookieSign [97] (strToBytes "super_secret_key")) ∧
    cookieVerify ((97 :: 46 :: cookieSign [97] (strToBytes "super_secret_key")) ++
        46 :: cookieSign (97 :: 46 :: cookieSign [97] (strToBytes "super_secret_key"))
          (strToBytes "super_secret_key"))
      (strToBytes "super_secret_key") = some [97] :=
  ⟨by decide, by decide⟩

/-- C10 (amended): the manual cookie scheme of `part_010` round-trips
exactly on dot-free values — verify returns the original value — while for
values containing a dot the sign-then-verify round trip is not always
null: there are values for which verify returns a non-null truncated
prefix instead. -/
theorem c10_cookie_roundtrip :
    (∀ v s : List Nat, 46 ∉ v → cookieVerify (v ++ 46 :: cookieSign v s) s = some v) ∧
    (∃ v s : List Nat, 46 ∈ v ∧ cookieVerify (v ++ 46 :: cookieSign v s) s ≠ none ∧
      cookieVerify (v ++ 46 :: cookieSign v s) s ≠ some v) := by
  constructor
  · intro v s hv
    unfold cookieVerify
    rw [splitOnByte_append _ hv, splitOnByte_of_not_mem (not_dot_mem_cookieSign v s)]
    simp
  · refine ⟨97 :: 46 :: cookieSign [97] (strToBytes "super_secret_key"),
      strToBytes "super_secret_key", by decide, by decide, by decide⟩

/-- Witness for C10: a concrete dot-free cookie value round-trips. -/
theorem c10_cookie_roundtrip_witness :
    cookieVerify (strToBytes "userId=123" ++
        46 :: cookieSign (strToBytes "userId=123") (strToBytes "super_secret_key"))
      (strToBytes "super_secret_key") = some (strToBytes "userId=123") :=
  c10_cookie_roundtrip.1 (strToBytes "userId=123") (strToBytes "super_secret_key") (by decide)

/-- Unfolding equation for `tokenDecode` when the wire splits into exactly
three segments. -/
theorem tokenDecode_three (s1 s2 s3 wire : List Nat)
    (hsp : splitOnByte 46 wire = [s1, s2, s3]) :
    tokenDecode wire =
      (if s1.isEmpty || s2.isEmpty || s3.isEmpty then none
       else
         match b64urlDecode s1, b64urlDecode s2, b64urlDecode s3 with
         | some h, some p, some sg =>
           if jsonWf h && jsonWf p then
             some { header := h, payload := p, signingInput := s1 ++ 46 :: s2, signature := sg }
           else none
         | _, _, _ => none) := by
  unfold tokenDecode
  rw [hsp]

/-- C6: the spec-modelled decoder fails exactly when the wire does not
split into three non-empty segments, or some segment is not valid
base64url, or the header or payload segment is not well-formed structured
data; and on every such malformed wire the verifier terminates in
`rejected malformed` and never yields a claim set. -/
theorem c6_decode_malformed_iff :
    (∀ wire : List Nat,
      (tokenDecode wire = none ↔
        ¬ ∃ s1 s2 s3 hb pb sb, splitOnByte 46 wire = [s1, s2, s3] ∧
          s1 ≠ [] ∧ s2 ≠ [] ∧ s3 ≠ [] ∧
          b64urlDecode s1 = some hb ∧ b64urlDecode s2 = some pb ∧
          b64urlDecode s3 = some sb ∧ jsonWf hb = true ∧ jsonWf pb = true)) ∧
    (∀ (parseClaims : List Nat → Option TokenClaims) (keys : List (List Nat))
        (cfg : VerifierConfig) (now : Int) (wire : List Nat),
      tokenDecode wire = none →
        verifyToken parseClaims keys cfg now wire = VerifyResult.rejected RejectReason.malformed ∧
        ∀ t c, verifyToken parseClaims keys cfg now wire ≠ VerifyResult.success t c) := by
  constructor
  · intro wire
    rcases hsp : splitOnByte 46 wire with _ | ⟨s1, _ | ⟨s2, _ | ⟨s3, _ | ⟨s4, t4⟩⟩⟩⟩
    · simp [tokenDecode, hsp]
    · simp [tokenDecode, hsp]
    · simp [tokenDecode, hsp]
    · rw [tokenDecode_three s1 s2 s3 wire hsp]
      simp only [hsp, List.cons.injEq, and_true]
      constructor
      · rintro hnone ⟨a, b, c, hb, pb, sb, ⟨rfl, rfl, rfl⟩, h1, h2, h3, hd1, hd2, hd3, hw1, hw2⟩
        rw [List.isEmpty_eq_false.mpr h1, List.isEmpty_eq_false.mpr h2,
          List.isEmpty_eq_false.mpr h3, hd1, hd2, hd3] at hnone
        simp [hw1, hw2] at hnone
      · intro hne
        by_cases h1 : s1 = []
        · simp [h1]
        by_cases h2 : s2 = []
        · simp [h2]
        by_cases h3 : s3 = []
        · simp [h3]
        rw [List.isEmpty_eq_false.mpr h1, List.isEmpty_eq_false.mpr h2,
          List.isEmpty_eq_false.mpr h3]
        simp only [Bool.or_false, Bool.false_or, if_false]
        cases hd1 : b64urlDecode s1 with
        | none => rfl
        | some hb =>
          cases hd2 : b64urlDecode s2 with
          | none => rfl
          | some pb =>
            cases hd3 : b64urlDecode s3 with
            | none => rfl
            | some sb =>
              by_cases hw : jsonWf hb && jsonWf pb
              · exfalso
                rw [Bool.and_eq_true] at hw
                exact hne ⟨s1, s2, s3, hb, pb, sb, ⟨rfl, rfl, rfl⟩, h1, h2, h3,
                  hd1, hd2, hd3, hw.1, hw.2⟩
              · simp [hw]
    · simp [tokenDecode, hsp]
  · intro parseClaims keys cfg now wire h
    unfold verifyToken
    rw [h]
    exact ⟨rfl, fun t c => by simp⟩

/-- Witness for C6: a wire with no dot decodes to `none` and the verifier
rejects it as malformed without yielding claims. -/
theorem c6_decode_malformed_iff_witness :
    tokenDecode (strToBytes "notatoken") = none ∧
    verifyToken (fun _ => none) []
      { issuer := "", clientId := "", skewTol := 0, expectedNonce := none }
      0 (strToBytes "notatoken") =
      VerifyResult.rejected RejectReason.malformed :=
  ⟨by decide,
    (c6_decode_malformed_iff.2 (fun _ => none) []
      { issuer := "", clientId := "", skewTol := 0, expectedNonce := none } 0
      (strToBytes "notatoken") (by decide)).1⟩

/-- Sign-then-verify identity for the `part_004` HMAC engine: the signature
computed over a payload always verifies for that payload. -/
theorem verifySignature_roundtrip (p : List Nat) :
    verifySignature p (hmacHexSig p) = some true := by
  unfold verifySignature timingSafeEqual
  simp

/-- Any single-byte flip of the signature is detected by the `part_004`
verifier: the comparison runs (lengths still agree) and returns false. -/
theorem verifySignature_flip_detected (p : List Nat) (i b : Nat)
    (hi : i < (hmacHexSig p).length) (hb : b ≠ (hmacHexSig p).getD i 0) :
    verifySignature p ((hmacHexSig p).set i b) = some false := by
  unfold verifySignature timingSafeEqual
  rw [List.length_set, if_pos rfl]
  have hne : hmacHexSig p ≠ (hmacHexSig p).set i b := by
    intro e
    apply hb
    have : ((hmacHexSig p).set i b).getD i 0 = b := by
      rw [List.getD_eq_getElem?_getD, List.getElem?_set_self hi, Option.getD_some]
    rw [← e] at this
    exact this.symm
  rw [beq_eq_false_iff_ne.mpr hne]
